import Mathlib

/-!
# Verification of the edge-tts read-aloud extension against its specification

Shallow embedding of the reading pipeline of the browser extension.  JS strings
are modelled as `List Char`, JS array indices as `Int` (JS out-of-range reads
give `undefined`, modelled through `Option`), audio byte chunks as `List Nat`.

The authoritative sources embedded here:
* `src/shared/text-processor.ts` — `TextProcessor.splitIntoSentences` and
  `TextProcessor.isHeading` (the segmenter used by the current content script);
* `src/unnamed/part_001` — the current `ContentManager` (readNextSentence,
  readSentence, readFromIndex, pauseReading, resumeReading, stopReading,
  getSettings);
* `src/background/background.ts` — the `getSettings` message handler;
* `src/unnamed/part_004` — the legacy background `getSettings` handler.
-/

namespace EdgeTTS

/-! ## Character classes used by the JS regexes -/

/-- Sentence terminators, the class `[.!?]` of the segmenter regex. -/
def isTerm (c : Char) : Bool := c == '.' || c == '!' || c == '?'

/-- The JS regex class `\s` (and the character set removed by
`String.prototype.trim`): WhiteSpace plus LineTerminator code points. -/
def isJsSpace (c : Char) : Bool :=
  c == ' ' || c == '\t' || c == '\n' || c == '\r' ||
  c.toNat == 0x0B || c.toNat == 0x0C || c.toNat == 0xA0 || c.toNat == 0x1680 ||
  (0x2000 ≤ c.toNat && c.toNat ≤ 0x200A) ||
  c.toNat == 0x2028 || c.toNat == 0x2029 || c.toNat == 0x202F ||
  c.toNat == 0x205F || c.toNat == 0x3000 || c.toNat == 0xFEFF

/-- The JS regex class `[A-Z]` (ASCII uppercase only). -/
def isUpperAZ (c : Char) : Bool := 65 ≤ c.toNat && c.toNat ≤ 90

/-- The JS regex class `[a-z]` (ASCII lowercase only). -/
def isLowerAZ (c : Char) : Bool := 97 ≤ c.toNat && c.toNat ≤ 122

/-- The JS regex class `\d`. -/
def isDigit09 (c : Char) : Bool := 48 ≤ c.toNat && c.toNat ≤ 57

/-- The JS regex `.` metacharacter: any character except a line terminator. -/
def jsDotOk (c : Char) : Bool :=
  !(c == '\n' || c == '\r' || c.toNat == 0x2028 || c.toNat == 0x2029)

/-! ## Whitespace normalization

`text.replace(/\s+/g, ' ').trim()` — text-processor.ts line 10. -/

/-- One pass of `replace(/\s+/g, ' ')`: every maximal whitespace run becomes a
single space.  The boolean flag records whether we are inside a run whose
replacement space has already been emitted. -/
def collapseWS (inRun : Bool) : List Char → List Char
  | [] => []
  | c :: cs =>
    if isJsSpace c then
      if inRun then collapseWS true cs else ' ' :: collapseWS true cs
    else c :: collapseWS false cs

/-- `String.prototype.trim`: strip leading and trailing whitespace. -/
def trimChars (l : List Char) : List Char :=
  ((l.dropWhile isJsSpace).reverse.dropWhile isJsSpace).reverse

/-- The whole normalization prefix of `splitIntoSentences`
(text-processor.ts line 10). -/
def normalizeWS (l : List Char) : List Char := trimChars (collapseWS false l)

/-! ## The sentence regex

`/[^.!?]+(?:[.!?]+(?:(?=[A-Z][a-z])|$|\s))/g` — text-processor.ts line 13.
`String.prototype.match` with the `g` flag returns the list of successive
leftmost matches.  For this particular pattern backtracking never rescues a
failed attempt (shrinking `[.!?]+` leaves a terminator at the continuation
point, which satisfies none of the three alternatives, and shrinking
`[^.!?]+` starves `[.!?]+`), so the global scan is the deterministic
left-to-right automaton below.  `ScanSt` is its control state: outside any
match, inside the `[^.!?]+` run, or inside the `[.!?]+` run. -/
inductive ScanSt where
  | outside : ScanSt
  | inPlain (acc : List Char) : ScanSt
  | inTerm (accPlain accTerm : List Char) : ScanSt
deriving DecidableEq

/-- The zero-width lookahead `(?=[A-Z][a-z])` applied at the position of `c`
with remaining input `cs`. -/
def lookAhead2 (c : Char) : List Char → Bool
  | e :: _ => isUpperAZ c && isLowerAZ e
  | [] => false

/-- The scanning automaton for the sentence regex.  In state `inTerm a b` the
next character decides the `(?:(?=[A-Z][a-z])|$|\s)` group: a lookahead success
emits `a ++ b` and resumes scanning at the very same character; a whitespace
character is consumed into the match; anything else fails the attempt, and the
leftmost-match discipline resumes scanning exactly there. -/
def scanStep : ScanSt → List Char → List (List Char)
  | .outside, [] => []
  | .inPlain _, [] => []
  | .inTerm a b, [] => [a ++ b]
  | .outside, c :: cs =>
    if isTerm c then scanStep .outside cs else scanStep (.inPlain [c]) cs
  | .inPlain acc, c :: cs =>
    if isTerm c then scanStep (.inTerm acc [c]) cs
    else scanStep (.inPlain (acc ++ [c])) cs
  | .inTerm a b, c :: cs =>
    if isTerm c then scanStep (.inTerm a (b ++ [c])) cs
    else if isJsSpace c then (a ++ b ++ [c]) :: scanStep .outside cs
    else if lookAhead2 c cs then (a ++ b) :: scanStep (.inPlain [c]) cs
    else scanStep (.inPlain [c]) cs

/-- `text.match(sentenceRegex) || []` — text-processor.ts line 14. -/
def matchAll (s : List Char) : List (List Char) := scanStep .outside s

/-! ## Heading heuristic — text-processor.ts lines 28-37 -/

/-- `/^[A-Z0-9\s.,!?-]+$/`. -/
def headingPat1 (l : List Char) : Bool :=
  !l.isEmpty && l.all fun c =>
    isUpperAZ c || isDigit09 c || isJsSpace c ||
    c == '.' || c == ',' || c == '!' || c == '?' || c == '-'

/-- `/^.{1,50}:$/`. -/
def headingPat2 (l : List Char) : Bool :=
  2 ≤ l.length && l.length ≤ 51 &&
  (match l.getLast? with
   | some c => c == ':'
   | none => false) &&
  l.dropLast.all jsDotOk

/-- `/^\d+\.\s+.{1,50}$/`.  The existential over the split point between the
`\s+` run and the final `.{1,50}` is what regex backtracking searches. -/
def headingPat3 (l : List Char) : Bool :=
  let ds := l.takeWhile isDigit09
  let r := l.drop ds.length
  !ds.isEmpty &&
  (match r with
   | '.' :: r2 =>
     (List.range (r2.length + 1)).any fun j =>
       1 ≤ j && (r2.take j).all isJsSpace &&
       1 ≤ (r2.drop j).length && (r2.drop j).length ≤ 50 &&
       (r2.drop j).all jsDotOk
   | _ => false)

/-- `TextProcessor.isHeading` — text-processor.ts lines 28-37. -/
def isHeadingChars (l : List Char) : Bool :=
  headingPat1 l || headingPat2 l || headingPat3 l

/-! ## Sentence units — text-processor.ts lines 1-26 -/

/-- The exported `Sentence` interface of text-processor.ts. -/
structure Sentence where
  text : List Char
  index : Nat
  isHeading : Bool
deriving DecidableEq

/-- The arrow function inside `.map((text, index) => ...)` of
`splitIntoSentences` (text-processor.ts lines 17-24), applied to an
index-match pair. -/
def mkUnit (p : Nat × List Char) : Sentence :=
  { text := trimChars p.2, index := p.1, isHeading := isHeadingChars (trimChars p.2) }

/-- `TextProcessor.splitIntoSentences` — text-processor.ts lines 8-26:
normalize whitespace, take all regex matches, map each to a trimmed unit with
its position index, and drop units whose text is empty. -/
def splitIntoSentences (text : List Char) : List Sentence :=
  (((matchAll (normalizeWS text)).enum.map mkUnit).filter fun s => 0 < s.text.length)

/-- Single-space join of unit texts, the combinator of the spec sentence
about reproducing the normalized text. -/
def joinSpace (ts : List (List Char)) : List Char := List.intercalate [' '] ts

/-- Fixture: a non-empty text with no sentence-terminating punctuation. -/
def hwText : List Char := "hello world".toList

/-! ## Settings — the `getSettings` collaborators

Speeds are JS numbers used only as rate multipliers; modelled as `Rat`. -/

/-- The `{voice, speed}` payload of the settings collaborator. -/
structure Settings where
  voice : String
  speed : Rat
deriving DecidableEq

/-- The long-form default voice of background.ts line 113. -/
def msVoiceLong : String :=
  "Microsoft Server Speech Text to Speech Voice (en-US, AvaNeural)"

/-- The `getSettings` case of `BackgroundManager.setupMessageListener`
(background.ts lines 110-121): `browser.storage.sync.get` fills each missing
key from the defaults object; on a storage failure the catch branch returns a
literal fallback. -/
def backgroundGetSettings (storedVoice : Option String) (storedSpeed : Option Rat)
    (storageOk : Bool) : Settings :=
  if storageOk then
    { voice := storedVoice.getD msVoiceLong, speed := storedSpeed.getD 1 }
  else
    { voice := "en-US-AvaNeural", speed := 1 }

/-- The legacy background handler of part_004 lines 31-41. -/
def part004GetSettings (storedVoice : Option String) (storedSpeed : Option Rat) :
    Settings :=
  { voice := storedVoice.getD "en-US-AvaNeural", speed := storedSpeed.getD 1 }

/-- `ContentManager.getSettings` (part_001 lines 751-754): the response of the
background, or the literal fallback when no response object arrived. -/
def contentGetSettings (response : Option Settings) : Settings :=
  response.getD { voice := "en-US-AvaNeural", speed := 1 }

/-- JS falsiness of an optional string (`!voice`): absent or empty. -/
def jsFalsyStr : Option String → Bool
  | none => true
  | some s => s == ""

/-- JS falsiness of an optional number (`!speed`): absent or zero. -/
def jsFalsyRat : Option Rat → Bool
  | none => true
  | some q => q == 0

/-- JS `x || d` for an optional string. -/
def jsOrStr (v : Option String) (d : String) : String :=
  match v with
  | none => d
  | some s => if s == "" then d else s

/-- JS `x || d` for an optional number. -/
def jsOrRat (v : Option Rat) (d : Rat) : Rat :=
  match v with
  | none => d
  | some q => if q == 0 then d else q

/-- The voice and speed resolution of `ContentManager.startReadingText`
(part_001 lines 329-337): when either argument is falsy, fetch settings and
fill both with `||`; otherwise keep the explicit arguments. -/
def resolveStart (voice : Option String) (speed : Option Rat)
    (response : Option Settings) : String × Rat :=
  if jsFalsyStr voice || jsFalsyRat speed then
    let s := contentGetSettings response
    (jsOrStr voice s.voice, jsOrRat speed s.speed)
  else
    match voice, speed with
    | some v, some sp => (v, sp)
    | _, _ => ("", 0)

/-! ## The per-sentence synthesis stream handlers — part_001 lines 537-713

Audio byte chunks are opaque; a chunk is a `List Nat`. -/

/-- The `data` listener of `ContentManager.readSentence` (part_001 lines
619-625): it pushes the chunk unconditionally — its body never reads the
paused flag.  The first parameter records the value of `isPaused` at the
moment the chunk arrives, so that properties about paused arrival can be
stated; the result does not depend on it, exactly as in the source. -/
def dataHandler (_isPausedNow : Bool) (allChunks : List (List Nat))
    (chunk : List Nat) : List (List Nat) :=
  allChunks ++ [chunk]

/-- The `data` listener of the legacy content.ts `readSentence` (content.ts
lines 396-404), which does check the paused flag and drops the chunk. -/
def legacyDataHandler (isPausedNow : Bool) (allChunks : List (List Nat))
    (chunk : List Nat) : List (List Nat) :=
  if isPausedNow then allChunks else allChunks ++ [chunk]

/-- `combinedBuffer` — part_001 lines 652-659. -/
def concatChunks : List (List Nat) → List Nat
  | [] => []
  | c :: cs => c ++ concatChunks cs

/-- Possible outcomes of the `end` listener of `readSentence`. -/
inductive EndOutcome where
  | pausedResolve : EndOutcome
  | rejectNoData : EndOutcome
  | rejectDecode : EndOutcome
  | play (buffer : List Nat) : EndOutcome
deriving DecidableEq

/-- The `end` listener of `ContentManager.readSentence` (part_001 lines
633-706).  `paused0` is `isPaused` when the listener starts (re-read
unchanged at line 661, since no suspension point lies between the two
checks); `paused2` is `isPaused` after the `decodeAudioData` await;
`decodeOk` is whether decoding succeeded.  Order of checks follows the
source: paused, then the zero-chunk guard, then combine, paused again,
decode, paused again, then playback. -/
def endHandler (paused0 : Bool) (allChunks : List (List Nat))
    (decodeOk paused2 : Bool) : EndOutcome :=
  if paused0 then .pausedResolve
  else if allChunks.length = 0 then .rejectNoData
  else if paused0 then .pausedResolve
  else if !decodeOk then .rejectDecode
  else if paused2 then .pausedResolve
  else .play (concatChunks allChunks)

/-! ## The reading session controller — part_001 `ContentManager` -/

/-- The mutable session fields of `ContentManager` (part_001 lines 49-59)
that drive sequencing.  `currentSentenceIndex` is a JS number and can go
negative, hence `Int`.  (The transient `sourceNode`, `audioContext`,
`ttsClient`, `audioChunks` and `currentStream` resources are released and
recreated around every operation and carry no sequencing information.) -/
structure SessState where
  sentences : List Sentence
  currentSentenceIndex : Int
  isPlaying : Bool
  isPaused : Bool
  currentVoice : Option String
  currentSpeed : Option Rat
deriving DecidableEq

/-- JS array indexing `this.sentences[i]`: `undefined` outside `0..len-1`. -/
def jsGet (l : List Sentence) (i : Int) : Option Sentence :=
  if h : 0 ≤ i ∧ i.toNat < l.length then some (l.get ⟨i.toNat, h.2⟩) else none

/-- Observable events of one pipeline execution, in emission order:
`pipelineStart i` is an invocation of `readNextSentence` with
`currentSentenceIndex = i`; `highlight` is the `updateReaderHighlight`
message (part_001 lines 510-514); `synthStart` is the entry into
`readSentence` (line 518); `settled i ok` is the settling of sentence `i`'s
playback promise (resolution when `ok`, rejection otherwise); `stopped b` is
the `readingStopped` notification with `closeReader = b` (lines 817-820);
`crashed` is the TypeError thrown when the sentence at the current index is
`undefined`. -/
inductive Ev where
  | pipelineStart (index : Int) : Ev
  | highlight (index : Int) (text : List Char) : Ev
  | synthStart (index : Int) (text : List Char) : Ev
  | settled (index : Int) (ok : Bool) : Ev
  | stopped (closeReader : Bool) : Ev
  | crashed : Ev
deriving DecidableEq

/-- `ContentManager.stopReading` (part_001 lines 756-822), state part:
flags always cleared; voice, speed, index and sentence list cleared only
when state is not kept. -/
def stopReadingState (st : SessState) (keepState : Bool) : SessState :=
  let st1 := { st with isPaused := false, isPlaying := false }
  if keepState then st1
  else { st1 with currentVoice := none, currentSpeed := none,
                  currentSentenceIndex := 0, sentences := [] }

/-- `ContentManager.stopReading`, notification part: `readingStopped` is sent
exactly when state is not kept (part_001 lines 815-821). -/
def stopReadingEvents (closeReader keepState : Bool) : List Ev :=
  if keepState then [] else [Ev.stopped closeReader]

/-- The environment of one `readNextSentence` iteration: what the synthesis
stream delivered and the values of the shared flags at each of the
iteration's observation points.  The flag fields are adversarial — any
pause/resume/stop message arriving during the iteration's suspension points
is represented by the values it leaves in the flags. -/
structure IterEnv where
  streamError : Bool
  chunks : List (List Nat)
  pausedAtEnd : Bool
  decodeOk : Bool
  pausedAfterDecode : Bool
  pausedAfter : Bool
  playingAfter : Bool

/-- Whether sentence playback settles by resolution or rejection, composed
from the stream events and the `end` listener (readSentence never rejects
once playback started: `onended` fires even on an early `stop()`). -/
inductive SentOutcome where
  | resolved : SentOutcome
  | rejected : SentOutcome
deriving DecidableEq

/-- The settling of one `readSentence` call under environment `env`:
a stream `error` event rejects (part_001 lines 627-631); otherwise the `end`
listener decides. -/
def sentOutcome (env : IterEnv) : SentOutcome :=
  if env.streamError then .rejected
  else
    match endHandler env.pausedAtEnd env.chunks env.decodeOk env.pausedAfterDecode with
    | .pausedResolve => .resolved
    | .rejectNoData => .rejected
    | .rejectDecode => .rejected
    | .play _ => .resolved

/-- The early-return guard of `readNextSentence` (part_001 line 488). -/
def guardStop (st : SessState) : Bool :=
  st.isPaused || !st.isPlaying ||
  decide ((st.sentences.length : Int) ≤ st.currentSentenceIndex)

/-- `ContentManager.readNextSentence` (part_001 lines 479-535), as a
trace-producing interpreter.  One fuel unit per invocation (the recursion
consumes one sentence per step, so any fuel above the sentence count is
exact).  Each invocation: guard (line 488; a full stop with `closeReader =
true` when the index has run past the list, line 495-497); highlight message
(lines 510-514); `readSentence` (line 518); on resolution the pacing delay
and the flag re-check (lines 522-529) decide whether to advance and recurse;
on rejection the catch performs `stopReading(true)` (line 533). -/
def run : Nat → SessState → (Nat → IterEnv) → List Ev × SessState
  | 0, st, _ => ([], st)
  | fuel + 1, st, sched =>
    if guardStop st then
      if (st.sentences.length : Int) ≤ st.currentSentenceIndex then
        (Ev.pipelineStart st.currentSentenceIndex :: stopReadingEvents true false,
         stopReadingState st false)
      else
        ([Ev.pipelineStart st.currentSentenceIndex], st)
    else
      match jsGet st.sentences st.currentSentenceIndex with
      | none => ([Ev.pipelineStart st.currentSentenceIndex, Ev.crashed], st)
      | some sen =>
        match sentOutcome (sched 0) with
        | .rejected =>
          (Ev.pipelineStart st.currentSentenceIndex
            :: Ev.highlight st.currentSentenceIndex sen.text
            :: Ev.synthStart st.currentSentenceIndex sen.text
            :: Ev.settled st.currentSentenceIndex false
            :: stopReadingEvents true false,
           stopReadingState st false)
        | .resolved =>
          if (sched 0).pausedAfter = false ∧ (sched 0).playingAfter = true then
            match run fuel
                { st with currentSentenceIndex := st.currentSentenceIndex + 1,
                          isPaused := false, isPlaying := true }
                (fun n => sched (n + 1)) with
            | (tr, stFin) =>
              (Ev.pipelineStart st.currentSentenceIndex
                :: Ev.highlight st.currentSentenceIndex sen.text
                :: Ev.synthStart st.currentSentenceIndex sen.text
                :: Ev.settled st.currentSentenceIndex true :: tr,
               stFin)
          else
            ([Ev.pipelineStart st.currentSentenceIndex,
              Ev.highlight st.currentSentenceIndex sen.text,
              Ev.synthStart st.currentSentenceIndex sen.text,
              Ev.settled st.currentSentenceIndex true],
             { st with isPaused := (sched 0).pausedAfter,
                       isPlaying := (sched 0).playingAfter })

/-- `ContentManager.pauseReading` (part_001 lines 729-749): sets the paused
flag, stops and releases the current audio node and pending chunk list, and
keeps `currentSentenceIndex` untouched. -/
def pauseReading (st : SessState) : SessState :=
  { st with isPaused := true }

/-- `ContentManager.resumeReading` (part_001 lines 715-727): resolve voice
and speed from settings when falsy, clear the paused flag, set the playing
flag, and re-enter the pipeline at the current, unchanged index.
`settings` is the payload delivered by the settings collaborator. -/
def resumeReading (fuel : Nat) (st : SessState) (settings : Settings)
    (sched : Nat → IterEnv) : List Ev × SessState :=
  let st1 :=
    if jsFalsyStr st.currentVoice || jsFalsyRat st.currentSpeed then
      { st with currentVoice := some settings.voice,
                currentSpeed := some settings.speed }
    else st
  run fuel { st1 with isPaused := false, isPlaying := true } sched

/-- Response status of a message handler (part_001 lines 86-182). -/
inductive Status where
  | success : Status
  | failure (msg : String) : Status
deriving DecidableEq

/-- The `resumeReading` case of the content message listener (part_001 lines
165-171): awaits `resumeReading` and answers success; `resumeReading` only
rejects when the settings round-trip itself fails, which the delivered
`settings` argument excludes here. -/
def handleResumeMessage (fuel : Nat) (st : SessState) (settings : Settings)
    (sched : Nat → IterEnv) : Status × List Ev × SessState :=
  match resumeReading fuel st settings sched with
  | (tr, stFin) => (.success, tr, stFin)

/-- `ContentManager.stopCurrentReading` (part_001 lines 419-477), state part:
releases every transient resource and clears both flags; sentences, index,
voice and speed are untouched. -/
def stopCurrent (st : SessState) : SessState :=
  { st with isPlaying := false, isPaused := false }

/-- Errors thrown by `ContentManager.readFromIndex`:
`noSentences` for the empty-session guard (line 370), `indexOutOfBounds`
for the upper-bound guard (line 375), and `sentenceUndefined` for the
TypeError raised at line 407 when `sentences[index]` is `undefined`
(the guard never checks negative indices). -/
inductive RFIError where
  | noSentences : RFIError
  | indexOutOfBounds : RFIError
  | sentenceUndefined : RFIError
deriving DecidableEq

/-- Result of a `readFromIndex` call: the error it threw (if any), the
events of the pipeline it launched, and the session state it leaves. -/
structure RFIResult where
  thrown : Option RFIError
  trace : List Ev
  state : SessState
deriving DecidableEq

/-- `ContentManager.readFromIndex` (part_001 lines 364-417): the two guards,
then `stopCurrentReading`, settings resolution when voice or speed is falsy
(lines 394-398), the state update to the requested index with playing set
and paused cleared (lines 401-403), the logging access
`this.sentences[this.currentSentenceIndex].text` (line 407) — which throws a
TypeError for a negative index, caught at line 412 where `stopCurrentReading`
runs again and the error is rethrown — and finally the pipeline. -/
def readFromIndex (fuel : Nat) (st : SessState) (settings : Settings)
    (sched : Nat → IterEnv) (index : Int) : RFIResult :=
  if st.sentences.length = 0 then
    { thrown := some .noSentences, trace := [], state := st }
  else if (st.sentences.length : Int) ≤ index then
    { thrown := some .indexOutOfBounds, trace := [], state := st }
  else
    let st1 := stopCurrent st
    let st2 :=
      if jsFalsyStr st1.currentVoice || jsFalsyRat st1.currentSpeed then
        { st1 with currentVoice := some settings.voice,
                   currentSpeed := some settings.speed }
      else st1
    let st3 := { st2 with currentSentenceIndex := index,
                          isPlaying := true, isPaused := false }
    match jsGet st3.sentences index with
    | none => { thrown := some .sentenceUndefined, trace := [], state := stopCurrent st3 }
    | some _ =>
      match run fuel st3 sched with
      | (tr, stFin) => { thrown := none, trace := tr, state := stFin }

/-! ## Concrete fixtures -/

/-- Fixture sentence texts. -/
def exT0 : List Char := "First one.".toList

/-- Fixture sentence texts. -/
def exT1 : List Char := "Second one.".toList

/-- Fixture sentence units. -/
def exS0 : Sentence := { text := exT0, index := 0, isHeading := false }

/-- Fixture sentence units. -/
def exS1 : Sentence := { text := exT1, index := 1, isHeading := false }

/-- Fixture session: two sentences, playing at index 0. -/
def exState2 : SessState :=
  { sentences := [exS0, exS1], currentSentenceIndex := 0,
    isPlaying := true, isPaused := false,
    currentVoice := some "en-US-AvaNeural", currentSpeed := some 1 }

/-- Fixture settings payload. -/
def exSettings : Settings := { voice := "en-US-AvaNeural", speed := 1 }

/-- Environment of an undisturbed successful sentence. -/
def envOk : IterEnv :=
  { streamError := false, chunks := [[1, 2], [3]], pausedAtEnd := false,
    decodeOk := true, pausedAfterDecode := false,
    pausedAfter := false, playingAfter := true }

/-- Environment of a sentence paused mid-playback: the stream completed and
playback settled, but a pause arrived before the post-delay flag check. -/
def envPause : IterEnv :=
  { streamError := false, chunks := [[1]], pausedAtEnd := false,
    decodeOk := true, pausedAfterDecode := false,
    pausedAfter := true, playingAfter := true }

/-- Environment of a stream that completed without emitting any chunk while
the session was not paused. -/
def envNoData : IterEnv :=
  { streamError := false, chunks := [], pausedAtEnd := false,
    decodeOk := true, pausedAfterDecode := false,
    pausedAfter := false, playingAfter := true }

/-- Environment of a stream that completed with zero chunks after a pause
request had set the flag. -/
def envPausedNoData : IterEnv :=
  { streamError := false, chunks := [], pausedAtEnd := true,
    decodeOk := true, pausedAfterDecode := false,
    pausedAfter := true, playingAfter := true }

/-- Recognizer for `readingStopped` notifications in a trace. -/
def isStoppedEv : Ev → Bool
  | .stopped _ => true
  | _ => false

/-- The fully-cleared session left by `stopReading` with `keepState = false`:
every field of the state record is reset, so the result does not depend on
the state it is applied to. -/
def clearedSession : SessState :=
  { sentences := [], currentSentenceIndex := 0, isPlaying := false,
    isPaused := false, currentVoice := none, currentSpeed := none }

/-- Invariant carried by the scanning automaton: while inside the `[.!?]+`
run, the accumulated terminator part is built of terminators and non-empty. -/
def termInv : ScanSt → Prop
  | .inTerm _ b => ∃ c ∈ b, isTerm c = true
  | _ => True

/-! ## Segmenter lemmas -/

lemma mem_dropWhile_self {p : Char → Bool} {c : Char} {l : List Char}
    (hc : c ∈ l) (hp : p c = false) : c ∈ l.dropWhile p := by
  induction l with
  | nil => cases hc
  | cons a l ih =>
    rw [List.dropWhile_cons]
    by_cases ha : p a = true
    · rw [if_pos ha]
      rcases List.mem_cons.mp hc with rfl | hcl
      · rw [hp] at ha; cases ha
      · exact ih hcl
    · rw [if_neg ha]
      exact hc

lemma trimChars_pos {c : Char} {l : List Char} (hc : c ∈ l)
    (hsp : isJsSpace c = false) : 0 < (trimChars l).length := by
  have h1 : c ∈ l.dropWhile isJsSpace := mem_dropWhile_self hc hsp
  have h2 : c ∈ (l.dropWhile isJsSpace).reverse := List.mem_reverse.mpr h1
  have h3 := mem_dropWhile_self (p := isJsSpace) h2 hsp
  have h4 : c ∈ trimChars l := List.mem_reverse.mpr h3
  exact List.length_pos.mpr (List.ne_nil_of_mem h4)

lemma isTerm_not_space {c : Char} (h : isTerm c = true) : isJsSpace c = false := by
  have hc : (c = '.' ∨ c = '!') ∨ c = '?' := by
    simpa [isTerm, Bool.or_eq_true, beq_iff_eq] using h
  rcases hc with (rfl | rfl) | rfl <;> decide

lemma scanStep_term (cs : List Char) : ∀ st : ScanSt, termInv st →
    ∀ m ∈ scanStep st cs, ∃ c ∈ m, isTerm c = true := by
  induction cs with
  | nil =>
    intro st hst m hm
    cases st with
    | outside => simp [scanStep] at hm
    | inPlain a => simp [scanStep] at hm
    | inTerm a b =>
      simp only [scanStep, List.mem_singleton] at hm
      subst hm
      obtain ⟨c, hc, ht⟩ := hst
      exact ⟨c, List.mem_append_right a hc, ht⟩
  | cons c cs ih =>
    intro st hst m hm
    cases st with
    | outside =>
      simp only [scanStep] at hm
      by_cases hc : isTerm c = true
      · rw [if_pos hc] at hm
        exact ih .outside trivial m hm
      · rw [if_neg hc] at hm
        exact ih (.inPlain [c]) trivial m hm
    | inPlain a =>
      simp only [scanStep] at hm
      by_cases hc : isTerm c = true
      · rw [if_pos hc] at hm
        exact ih (.inTerm a [c]) ⟨c, List.mem_singleton_self c, hc⟩ m hm
      · rw [if_neg hc] at hm
        exact ih (.inPlain (a ++ [c])) trivial m hm
    | inTerm a b =>
      obtain ⟨d, hd, hdt⟩ := hst
      simp only [scanStep] at hm
      by_cases hc : isTerm c = true
      · rw [if_pos hc] at hm
        exact ih (.inTerm a (b ++ [c])) ⟨d, List.mem_append_left _ hd, hdt⟩ m hm
      · rw [if_neg hc] at hm
        by_cases hs : isJsSpace c = true
        · rw [if_pos hs] at hm
          rcases List.mem_cons.mp hm with rfl | hm2
          · exact ⟨d, List.mem_append_left _ (List.mem_append_right a hd), hdt⟩
          · exact ih .outside trivial m hm2
        · rw [if_neg hs] at hm
          by_cases hl : lookAhead2 c cs = true
          · rw [if_pos hl] at hm
            rcases List.mem_cons.mp hm with rfl | hm2
            · exact ⟨d, List.mem_append_right a hd, hdt⟩
            · exact ih (.inPlain [c]) trivial m hm2
          · rw [if_neg hl] at hm
            exact ih (.inPlain [c]) trivial m hm

lemma matchAll_term {s : List Char} : ∀ m ∈ matchAll s, ∃ c ∈ m, isTerm c = true :=
  scanStep_term s .outside trivial

lemma scanStep_noTerm : ∀ cs : List Char, (∀ c ∈ cs, isTerm c = false) →
    scanStep .outside cs = [] ∧ ∀ a, scanStep (.inPlain a) cs = [] := by
  intro cs
  induction cs with
  | nil => intro _; exact ⟨rfl, fun _ => rfl⟩
  | cons c cs ih =>
    intro h
    have hc : isTerm c = false := h c (List.mem_cons_self c cs)
    have ih2 := ih fun d hd => h d (List.mem_cons_of_mem c hd)
    refine ⟨?_, fun a => ?_⟩
    · simp only [scanStep, hc, Bool.false_eq_true, if_false]
      exact ih2.2 [c]
    · simp only [scanStep, hc, Bool.false_eq_true, if_false]
      exact ih2.2 (a ++ [c])

lemma mem_collapseWS {c : Char} : ∀ (b : Bool) (l : List Char),
    c ∈ collapseWS b l → c = ' ' ∨ c ∈ l := by
  intro b l
  induction l generalizing b with
  | nil => intro h; simp [collapseWS] at h
  | cons a l ih =>
    intro h
    simp only [collapseWS] at h
    by_cases ha : isJsSpace a = true
    · rw [if_pos ha] at h
      cases b with
      | true =>
        rw [if_pos rfl] at h
        rcases ih true h with h1 | h1
        · exact Or.inl h1
        · exact Or.inr (List.mem_cons_of_mem a h1)
      | false =>
        rw [if_neg Bool.false_ne_true] at h
        rcases List.mem_cons.mp h with rfl | h2
        · exact Or.inl rfl
        · rcases ih true h2 with h1 | h1
          · exact Or.inl h1
          · exact Or.inr (List.mem_cons_of_mem a h1)
    · rw [if_neg ha] at h
      rcases List.mem_cons.mp h with rfl | h2
      · exact Or.inr (List.mem_cons_self c l)
      · rcases ih false h2 with h1 | h1
        · exact Or.inl h1
        · exact Or.inr (List.mem_cons_of_mem a h1)

lemma mem_trimChars {c : Char} {l : List Char} (h : c ∈ trimChars l) : c ∈ l := by
  unfold trimChars at h
  have h1 := List.mem_reverse.mp h
  have h2 := (List.dropWhile_sublist isJsSpace).subset h1
  have h3 := List.mem_reverse.mp h2
  exact (List.dropWhile_sublist isJsSpace).subset h3

lemma mem_normalizeWS {c : Char} {l : List Char} (h : c ∈ normalizeWS l) :
    c = ' ' ∨ c ∈ l :=
  mem_collapseWS false l (mem_trimChars h)

/-! ## Claim C2 -/

/-- C2, counterexample: for the non-empty input "hello world" the segmenter
returns no units at all, so the single-space join of the unit texts is empty
and does not reproduce the whitespace-normalized original text. -/
theorem claim2_join_counterexample :
    joinSpace ((splitIntoSentences hwText).map Sentence.text) = [] ∧
    normalizeWS hwText = hwText ∧ hwText ≠ [] := by
  refine ⟨?_, ?_, ?_⟩ <;> decide

/-- C2, amended: the index fields of the units returned by
`splitIntoSentences` are exactly `0..n-1` with no gaps (every regex match
contains a sentence terminator, which trimming keeps, so the final filter
never removes a unit); the join-reproduction half of the claim fails, as the
counterexample shows, because input outside every regex match is dropped. -/
theorem claim2_indices_amended (text : List Char) :
    (splitIntoSentences text).map Sentence.index =
      List.range (splitIntoSentences text).length := by
  have hfil :
      ((matchAll (normalizeWS text)).enum.map mkUnit).filter
          (fun s => decide (0 < s.text.length)) =
        (matchAll (normalizeWS text)).enum.map mkUnit := by
    apply List.filter_eq_self.mpr
    intro u hu
    obtain ⟨p, hp, rfl⟩ := List.mem_map.mp hu
    have hm : p.2 ∈ matchAll (normalizeWS text) := by
      have := List.mem_map_of_mem Prod.snd hp
      rwa [List.enum_map_snd] at this
    obtain ⟨c, hc, ht⟩ := matchAll_term p.2 hm
    have hpos : 0 < (trimChars p.2).length :=
      trimChars_pos hc (isTerm_not_space ht)
    simpa [mkUnit] using hpos
  have hcomp : (Sentence.index ∘ mkUnit) = Prod.fst := by
    funext p; rfl
  unfold splitIntoSentences
  rw [hfil, List.map_map, hcomp, List.enum_map_fst, List.length_map,
    List.enum_length]

/-! ## Claim C3 -/

/-- C3, counterexample: the non-empty input "hello world" contains no
sentence-terminating punctuation, and `splitIntoSentences` returns zero
units rather than exactly one unit containing the whole text. -/
theorem claim3_counterexample :
    splitIntoSentences hwText = [] ∧ hwText ≠ [] ∧
    (splitIntoSentences hwText).length ≠ 1 := by
  refine ⟨?_, ?_, ?_⟩ <;> decide

/-- C3, amended: for every input consisting solely of characters that are not
sentence terminators, `TextProcessor.splitIntoSentences` returns the empty
list — the un-terminated text is dropped, not returned as a single unit. -/
theorem claim3_amended (text : List Char)
    (h : ∀ c ∈ text, isTerm c = false) : splitIntoSentences text = [] := by
  have hn : ∀ c ∈ normalizeWS text, isTerm c = false := by
    intro c hc
    rcases mem_normalizeWS hc with rfl | hmem
    · decide
    · exact h c hmem
  have hma : matchAll (normalizeWS text) = [] := (scanStep_noTerm _ hn).1
  simp [splitIntoSentences, matchAll] at hma ⊢
  simp [hma]

/-- C3 witness: the amended theorem applied to the concrete input
"hello world". -/
theorem claim3_amended_witness : splitIntoSentences hwText = [] :=
  claim3_amended hwText (by decide)

/-! ## Claim C7 -/

/-- C7, counterexample: a chunk arriving while the paused flag is set is
appended to the pending chunk buffer, not discarded. -/
theorem claim7_counterexample :
    dataHandler true [] [7] = [[7]] ∧ ([[7]] : List (List Nat)) ≠ [] := by
  exact ⟨rfl, by decide⟩

/-- C7, amended: the part_001 data listener appends every arriving chunk to
the pending buffer regardless of the paused flag; the discard happens at the
end-event boundary instead — whenever the paused flag is set when the end
event fires, the end listener resolves without decoding or playing, so the
buffered chunks are never used.  (The legacy content.ts listener did drop
chunks at the data boundary.) -/
theorem claim7_amended :
    (∀ (paused : Bool) (chunks : List (List Nat)) (c : List Nat),
      dataHandler paused chunks c = chunks ++ [c]) ∧
    (∀ (chunks : List (List Nat)) (decodeOk paused2 : Bool),
      endHandler true chunks decodeOk paused2 = .pausedResolve) ∧
    (∀ (chunks : List (List Nat)) (c : List Nat),
      legacyDataHandler true chunks c = chunks) := by
  refine ⟨fun _ _ _ => rfl, fun chunks d p2 => ?_, fun _ _ => rfl⟩
  simp [endHandler]

/-! ## Claim C9 -/

/-- C9, counterexample: with nothing persisted and storage reachable, the
background getSettings handler returns the long-form Microsoft voice name,
not the documented default voice "en-US-AvaNeural". -/
theorem claim9_counterexample :
    backgroundGetSettings none none true ≠
      { voice := "en-US-AvaNeural", speed := 1 } := by
  decide

/-! ## List splitting helpers for trace-ordering proofs -/

lemma mem_of_append_eq {α} {xs l1 l2 : List α} {e : α}
    (h : xs = l1 ++ e :: l2) : e ∈ xs := by
  rw [h]
  exact List.mem_append_right _ (List.mem_cons_self _ _)

lemma cons_eq_append_cases {α} {x : α} {xs l1 l2 : List α} {e : α}
    (h : x :: xs = l1 ++ e :: l2) :
    (l1 = [] ∧ e = x ∧ l2 = xs) ∨ ∃ t, l1 = x :: t ∧ xs = t ++ e :: l2 := by
  cases l1 with
  | nil =>
    simp only [List.nil_append, List.cons.injEq] at h
    exact Or.inl ⟨rfl, h.1.symm, h.2.symm⟩
  | cons a t =>
    simp only [List.cons_append, List.cons.injEq] at h
    exact Or.inr ⟨t, by rw [h.1], h.2⟩

/-! ## Run-model lemmas -/

lemma stopReadingState_false (st : SessState) :
    stopReadingState st false = clearedSession := rfl

lemma jsGet_lt {l : List Sentence} {i : Int} {sen : Sentence}
    (h : jsGet l i = some sen) : 0 ≤ i ∧ i < (l.length : Int) := by
  unfold jsGet at h
  split at h
  · rename_i hc
    omega
  · cases h

lemma guardStop_false {st : SessState} (hplay : st.isPlaying = true)
    (hpause : st.isPaused = false)
    (hlt : st.currentSentenceIndex < (st.sentences.length : Int)) :
    guardStop st = false := by
  simp [guardStop, hplay, hpause, not_le.mpr hlt]

/-- The per-sentence pipeline emits highlight N immediately before the
synthesis of sentence N begins: whenever a `synthStart` event splits the
trace, the matching `highlight` event lies strictly before it. -/
lemma run_synth_order : ∀ (fuel : Nat) (st : SessState) (sched : Nat → IterEnv)
    (n : Int) (t : List Char) (l1 l2 : List Ev),
    (run fuel st sched).1 = l1 ++ Ev.synthStart n t :: l2 →
    Ev.highlight n t ∈ l1 := by
  intro fuel
  induction fuel with
  | zero =>
    intro st sched n t l1 l2 h
    simp only [run] at h
    exact absurd (mem_of_append_eq h) (by simp)
  | succ fuel ih =>
    intro st sched n t l1 l2 h
    simp only [run] at h
    split at h
    · split at h
      · have hmem := mem_of_append_eq h
        simp [stopReadingEvents] at hmem
      · have hmem := mem_of_append_eq h
        simp at hmem
    · split at h
      · have hmem := mem_of_append_eq h
        simp at hmem
      · split at h
        · rcases cons_eq_append_cases h with ⟨_, he, _⟩ | ⟨t1, rfl, h1⟩
          · simp at he
          · rcases cons_eq_append_cases h1 with ⟨_, he, _⟩ | ⟨t2, rfl, h2⟩
            · simp at he
            · rcases cons_eq_append_cases h2 with ⟨ht2, he, _⟩ | ⟨t3, rfl, h3⟩
              · obtain ⟨hn, htt⟩ := Ev.synthStart.inj he
                subst hn; subst htt; subst ht2
                simp
              · rcases cons_eq_append_cases h3 with ⟨_, he, _⟩ | ⟨t4, rfl, h4⟩
                · simp at he
                · have hmem := mem_of_append_eq h4
                  simp [stopReadingEvents] at hmem
        · split at h
          · rcases cons_eq_append_cases h with ⟨_, he, _⟩ | ⟨t1, rfl, h1⟩
            · simp at he
            · rcases cons_eq_append_cases h1 with ⟨_, he, _⟩ | ⟨t2, rfl, h2⟩
              · simp at he
              · rcases cons_eq_append_cases h2 with ⟨ht2, he, _⟩ | ⟨t3, rfl, h3⟩
                · obtain ⟨hn, htt⟩ := Ev.synthStart.inj he
                  subst hn; subst htt; subst ht2
                  simp
                · rcases cons_eq_append_cases h3 with ⟨_, he, _⟩ | ⟨t4, rfl, h4⟩
                  · simp at he
                  · have := ih _ _ n t t4 l2 h4
                    simp [this]
          · rcases cons_eq_append_cases h with ⟨_, he, _⟩ | ⟨t1, rfl, h1⟩
            · simp at he
            · rcases cons_eq_append_cases h1 with ⟨_, he, _⟩ | ⟨t2, rfl, h2⟩
              · simp at he
              · rcases cons_eq_append_cases h2 with ⟨ht2, he, _⟩ | ⟨t3, rfl, h3⟩
                · obtain ⟨hn, htt⟩ := Ev.synthStart.inj he
                  subst hn; subst htt; subst ht2
                  simp
                · rcases cons_eq_append_cases h3 with ⟨_, he, _⟩ | ⟨t4, rfl, h4⟩
                  · simp at he
                  · have hmem := mem_of_append_eq h4
                    simp at hmem

/-- The pipeline for an index starts only as the first action of a
`readNextSentence` chain or after the previous index playback has settled:
whenever `pipelineStart n` splits the trace, either it is the chain entry at
the state current index with nothing before it, or a `settled (n-1)` event
lies strictly before it. -/
lemma run_pipeline_order : ∀ (fuel : Nat) (st : SessState)
    (sched : Nat → IterEnv) (n : Int) (l1 l2 : List Ev),
    (run fuel st sched).1 = l1 ++ Ev.pipelineStart n :: l2 →
    (n = st.currentSentenceIndex ∧ l1 = []) ∨
      ∃ b, Ev.settled (n - 1) b ∈ l1 := by
  intro fuel
  induction fuel with
  | zero =>
    intro st sched n l1 l2 h
    simp only [run] at h
    exact absurd (mem_of_append_eq h) (by simp)
  | succ fuel ih =>
    intro st sched n l1 l2 h
    simp only [run] at h
    split at h
    · split at h
      · simp only [stopReadingEvents, if_neg Bool.false_ne_true] at h
        rcases cons_eq_append_cases h with ⟨hl, he, _⟩ | ⟨t1, rfl, h1⟩
        · exact Or.inl ⟨(Ev.pipelineStart.inj he), hl⟩
        · have hmem := mem_of_append_eq h1
          simp at hmem
      · rcases cons_eq_append_cases h with ⟨hl, he, _⟩ | ⟨t1, rfl, h1⟩
        · exact Or.inl ⟨(Ev.pipelineStart.inj he), hl⟩
        · have hmem := mem_of_append_eq h1
          simp at hmem
    · split at h
      · rcases cons_eq_append_cases h with ⟨hl, he, _⟩ | ⟨t1, rfl, h1⟩
        · exact Or.inl ⟨(Ev.pipelineStart.inj he), hl⟩
        · rcases cons_eq_append_cases h1 with ⟨_, he, _⟩ | ⟨t2, rfl, h2⟩
          · simp at he
          · have hmem := mem_of_append_eq h2
            simp at hmem
      · split at h
        · rcases cons_eq_append_cases h with ⟨hl, he, _⟩ | ⟨t1, rfl, h1⟩
          · exact Or.inl ⟨(Ev.pipelineStart.inj he), hl⟩
          · rcases cons_eq_append_cases h1 with ⟨_, he, _⟩ | ⟨t2, rfl, h2⟩
            · simp at he
            · rcases cons_eq_append_cases h2 with ⟨_, he, _⟩ | ⟨t3, rfl, h3⟩
              · simp at he
              · rcases cons_eq_append_cases h3 with ⟨_, he, _⟩ | ⟨t4, rfl, h4⟩
                · simp at he
                · have hmem := mem_of_append_eq h4
                  simp [stopReadingEvents] at hmem
        · split at h
          · rcases cons_eq_append_cases h with ⟨hl, he, _⟩ | ⟨t1, rfl, h1⟩
            · exact Or.inl ⟨(Ev.pipelineStart.inj he), hl⟩
            · rcases cons_eq_append_cases h1 with ⟨_, he, _⟩ | ⟨t2, rfl, h2⟩
              · simp at he
              · rcases cons_eq_append_cases h2 with ⟨_, he, _⟩ | ⟨t3, rfl, h3⟩
                · simp at he
                · rcases cons_eq_append_cases h3 with ⟨_, he, _⟩ | ⟨t4, rfl, h4⟩
                  · simp at he
                  · rcases ih _ _ n t4 l2 h4 with ⟨hn, ht4⟩ | ⟨b, hb⟩
                    · refine Or.inr ⟨true, ?_⟩
                      subst ht4
                      have hn1 : n - 1 = st.currentSentenceIndex := by
                        simp only [] at hn
                        omega
                      rw [hn1]
                      simp
                    · exact Or.inr ⟨b, by simp [hb]⟩
          · rcases cons_eq_append_cases h with ⟨hl, he, _⟩ | ⟨t1, rfl, h1⟩
            · exact Or.inl ⟨(Ev.pipelineStart.inj he), hl⟩
            · rcases cons_eq_append_cases h1 with ⟨_, he, _⟩ | ⟨t2, rfl, h2⟩
              · simp at he
              · rcases cons_eq_append_cases h2 with ⟨_, he, _⟩ | ⟨t3, rfl, h3⟩
                · simp at he
                · rcases cons_eq_append_cases h3 with ⟨_, he, _⟩ | ⟨t4, rfl, h4⟩
                  · simp at he
                  · have hmem := mem_of_append_eq h4
                    simp at hmem

/-! ## Claim C1 -/

/-- C1: in every pipeline execution, the highlight for sentence N is emitted
before sentence N synthesis starts, and the pipeline for an index other than
the chain entry starts only after the previous index playback promise has
settled. -/
theorem claim1_pipeline_ordering (fuel : Nat) (st : SessState)
    (sched : Nat → IterEnv) :
    (∀ n t l1 l2, (run fuel st sched).1 = l1 ++ Ev.synthStart n t :: l2 →
      Ev.highlight n t ∈ l1) ∧
    (∀ n l1 l2, (run fuel st sched).1 = l1 ++ Ev.pipelineStart n :: l2 →
      (n = st.currentSentenceIndex ∧ l1 = []) ∨
        ∃ b, Ev.settled (n - 1) b ∈ l1) :=
  ⟨fun n t l1 l2 h => run_synth_order fuel st sched n t l1 l2 h,
   fun n l1 l2 h => run_pipeline_order fuel st sched n l1 l2 h⟩

/-- C1 witness: the ordering theorem applied to a concrete two-sentence
session read to completion. -/
theorem claim1_pipeline_ordering_witness :
    Ev.highlight 0 exT0 ∈ [Ev.pipelineStart 0, Ev.highlight 0 exT0] ∧
    ∃ b, Ev.settled 0 b ∈
      [Ev.pipelineStart 0, Ev.highlight 0 exT0, Ev.synthStart 0 exT0,
       Ev.settled 0 true] := by
  constructor
  · exact (claim1_pipeline_ordering 3 exState2 (fun _ => envOk)).1 0 exT0
      [Ev.pipelineStart 0, Ev.highlight 0 exT0]
      [Ev.settled 0 true, Ev.pipelineStart 1, Ev.highlight 1 exT1,
       Ev.synthStart 1 exT1, Ev.settled 1 true, Ev.pipelineStart 2,
       Ev.stopped true]
      (by decide)
  · have h := (claim1_pipeline_ordering 3 exState2 (fun _ => envOk)).2 1
      [Ev.pipelineStart 0, Ev.highlight 0 exT0, Ev.synthStart 0 exT0,
       Ev.settled 0 true]
      [Ev.highlight 1 exT1, Ev.synthStart 1 exT1, Ev.settled 1 true,
       Ev.pipelineStart 2, Ev.stopped true]
      (by decide)
    rcases h with ⟨h1, _⟩ | ⟨b, hb⟩
    · exact absurd h1 (by decide)
    · exact ⟨b, by simpa using hb⟩

/-! ## Claim C8 -/

/-- C8: when the pipeline index has reached the sentence count, the
invocation performs a full stop — sentence list cleared, index reset, flags
cleared — and emits the `readingStopped` notification; and every pipeline
execution contains at most one `readingStopped` notification, so the
notification at the finish fires exactly once. -/
theorem claim8_finish_stop :
    (∀ (fuel : Nat) (st : SessState) (sched : Nat → IterEnv),
      (st.sentences.length : Int) ≤ st.currentSentenceIndex →
      run (fuel + 1) st sched =
        ([Ev.pipelineStart st.currentSentenceIndex, Ev.stopped true],
         clearedSession)) ∧
    (∀ (fuel : Nat) (st : SessState) (sched : Nat → IterEnv),
      ((run fuel st sched).1.countP isStoppedEv) ≤ 1) := by
  constructor
  · intro fuel st sched hfin
    have hg : guardStop st = true := by
      simp [guardStop, hfin]
    simp only [run, if_pos hg, if_pos hfin, stopReadingEvents,
      if_neg Bool.false_ne_true, stopReadingState_false]
  · intro fuel
    induction fuel with
    | zero => intro st sched; simp [run]
    | succ fuel ih =>
      intro st sched
      simp only [run]
      split
      · split
        · simp [stopReadingEvents, List.countP_cons, isStoppedEv]
        · simp [List.countP_cons, isStoppedEv]
      · split
        · simp [List.countP_cons, isStoppedEv]
        · split
          · simp [stopReadingEvents, List.countP_cons, isStoppedEv]
          · split
            · simp only [List.countP_cons, isStoppedEv]
              simpa using ih _ _
            · simp [List.countP_cons, isStoppedEv]

/-- C8 witness: a one-sentence session whose index has reached the count:
the run performs the full stop and the trace contains exactly one
`readingStopped` notification. -/
theorem claim8_finish_stop_witness :
    run 1 { sentences := [exS0], currentSentenceIndex := 1, isPlaying := true,
            isPaused := false, currentVoice := none, currentSpeed := none }
        (fun _ => envOk) =
      ([Ev.pipelineStart 1, Ev.stopped true], clearedSession) :=
  claim8_finish_stop.1 0
    { sentences := [exS0], currentSentenceIndex := 1, isPlaying := true,
      isPaused := false, currentVoice := none, currentSpeed := none }
    (fun _ => envOk) (by decide)

/-! ## Claim C5 -/

/-- C5, counterexample: a synthesis stream that completes with zero chunks
while the paused flag is set does not reject and does not stop the session:
the sentence promise resolves, no `readingStopped` notification is emitted,
no rejection is recorded, and the sentence list survives. -/
theorem claim5_counterexample :
    run 1 exState2 (fun _ => envPausedNoData) =
      ([Ev.pipelineStart 0, Ev.highlight 0 exT0, Ev.synthStart 0 exT0,
        Ev.settled 0 true],
       { exState2 with isPaused := true, isPlaying := true }) ∧
    Ev.stopped true ∉ (run 1 exState2 (fun _ => envPausedNoData)).1 ∧
    Ev.settled 0 false ∉ (run 1 exState2 (fun _ => envPausedNoData)).1 ∧
    (run 1 exState2 (fun _ => envPausedNoData)).2.sentences ≠ [] := by
  refine ⟨?_, ?_, ?_, ?_⟩ <;> decide

/-- C5, amended: when the paused flag is **not** set at the end event, a
stream completion with zero chunks is treated as a synthesis failure: the
sentence promise rejects (the end listener returns the no-audio-data
rejection), the session performs a full stop with the `readingStopped`
notification, and the index is never advanced — the whole session state is
cleared instead.  When the paused flag is set, the pause branch of the end
listener resolves first, as the counterexample shows. -/
theorem claim5_amended (fuel : Nat) (st : SessState) (sched : Nat → IterEnv)
    (sen : Sentence)
    (hplay : st.isPlaying = true) (hpause : st.isPaused = false)
    (hj : jsGet st.sentences st.currentSentenceIndex = some sen)
    (hse : (sched 0).streamError = false)
    (hch : (sched 0).chunks = [])
    (hpe : (sched 0).pausedAtEnd = false) :
    run (fuel + 1) st sched =
      ([Ev.pipelineStart st.currentSentenceIndex,
        Ev.highlight st.currentSentenceIndex sen.text,
        Ev.synthStart st.currentSentenceIndex sen.text,
        Ev.settled st.currentSentenceIndex false,
        Ev.stopped true], clearedSession) ∧
    endHandler false [] (sched 0).decodeOk (sched 0).pausedAfterDecode =
      EndOutcome.rejectNoData := by
  have hlt := (jsGet_lt hj).2
  have hg : guardStop st = false := guardStop_false hplay hpause hlt
  have ho : sentOutcome (sched 0) = SentOutcome.rejected := by
    simp [sentOutcome, hse, hpe, hch, endHandler]
  constructor
  · simp [run, hg, hj, ho, stopReadingEvents, stopReadingState_false]
  · simp [endHandler]

/-- C5 witness: the amended theorem at a concrete two-sentence session whose
first synthesis stream completes, unpaused, with zero chunks. -/
theorem claim5_amended_witness :
    run 1 exState2 (fun _ => envNoData) =
      ([Ev.pipelineStart 0, Ev.highlight 0 exT0, Ev.synthStart 0 exT0,
        Ev.settled 0 false, Ev.stopped true], clearedSession) ∧
    endHandler false [] true false = EndOutcome.rejectNoData := by
  have h := claim5_amended 0 exState2 (fun _ => envNoData) exS0
    rfl rfl (by decide) rfl rfl rfl
  exact h

/-! ## Claim C6 -/

/-- Resuming is the pipeline re-entered at a state with the same sentence
list and index, the paused flag cleared and the playing flag set
(part_001 lines 715-727). -/
lemma resumeReading_run (fuel : Nat) (st : SessState) (settings : Settings)
    (sched : Nat → IterEnv) :
    ∃ stR : SessState,
      resumeReading fuel st settings sched = run fuel stR sched ∧
      stR.sentences = st.sentences ∧
      stR.currentSentenceIndex = st.currentSentenceIndex ∧
      stR.isPaused = false ∧ stR.isPlaying = true := by
  unfold resumeReading
  split
  · exact ⟨_, rfl, rfl, rfl, rfl, rfl⟩
  · exact ⟨_, rfl, rfl, rfl, rfl, rfl⟩

/-- Whenever the pipeline is entered unpaused and playing at a valid index,
its trace starts with the pipeline entry, the highlight, and the synthesis
start for that index and text. -/
lemma run_head (fuel : Nat) (st : SessState) (sched : Nat → IterEnv)
    (sen : Sentence) (hplay : st.isPlaying = true) (hpause : st.isPaused = false)
    (hj : jsGet st.sentences st.currentSentenceIndex = some sen) :
    ∃ rest, (run (fuel + 1) st sched).1 =
      Ev.pipelineStart st.currentSentenceIndex
        :: Ev.highlight st.currentSentenceIndex sen.text
        :: Ev.synthStart st.currentSentenceIndex sen.text :: rest := by
  have hlt := (jsGet_lt hj).2
  have hg : guardStop st = false := guardStop_false hplay hpause hlt
  simp only [run, hg, Bool.false_eq_true, if_false, hj]
  cases ho : sentOutcome (sched 0) with
  | rejected =>
    exact ⟨Ev.settled st.currentSentenceIndex false
      :: stopReadingEvents true false, by simp⟩
  | resolved =>
    by_cases hcont : (sched 0).pausedAfter = false ∧ (sched 0).playingAfter = true
    · exact ⟨Ev.settled st.currentSentenceIndex true ::
        (run fuel
          { st with currentSentenceIndex := st.currentSentenceIndex + 1,
                    isPaused := false, isPlaying := true }
          (fun n => sched (n + 1))).1, by simp [hcont]⟩
    · exact ⟨[Ev.settled st.currentSentenceIndex true], by simp [hcont]⟩

/-- C6: pausing during sentence K — after its highlight, before its playback
completion — leaves the session at index K with its sentence list intact
(`pauseReading` itself never touches the index), and a subsequent resume
re-enters the pipeline at the unchanged index K, re-emitting the highlight
for K with the same sentence text and re-running synthesis for that text. -/
theorem claim6_pause_resume (fuel fuel2 : Nat) (st : SessState)
    (sched sched2 : Nat → IterEnv) (settings : Settings) (sen : Sentence)
    (hplay : st.isPlaying = true) (hpause : st.isPaused = false)
    (hj : jsGet st.sentences st.currentSentenceIndex = some sen)
    (hout : sentOutcome (sched 0) = SentOutcome.resolved)
    (hpa : (sched 0).pausedAfter = true) :
    (∀ x : SessState,
      (pauseReading x).currentSentenceIndex = x.currentSentenceIndex) ∧
    (run (fuel + 1) st sched).2.currentSentenceIndex =
      st.currentSentenceIndex ∧
    (run (fuel + 1) st sched).2.sentences = st.sentences ∧
    (∃ rest,
      (resumeReading (fuel2 + 1) (run (fuel + 1) st sched).2 settings sched2).1 =
        Ev.pipelineStart st.currentSentenceIndex
          :: Ev.highlight st.currentSentenceIndex sen.text
          :: Ev.synthStart st.currentSentenceIndex sen.text :: rest) := by
  have hlt := (jsGet_lt hj).2
  have hg : guardStop st = false := guardStop_false hplay hpause hlt
  have hcont : ¬((sched 0).pausedAfter = false ∧ (sched 0).playingAfter = true) := by
    simp [hpa]
  have hrun : run (fuel + 1) st sched =
      ([Ev.pipelineStart st.currentSentenceIndex,
        Ev.highlight st.currentSentenceIndex sen.text,
        Ev.synthStart st.currentSentenceIndex sen.text,
        Ev.settled st.currentSentenceIndex true],
       { st with isPaused := (sched 0).pausedAfter,
                 isPlaying := (sched 0).playingAfter }) := by
    simp [run, hg, hj, hout, hcont]
  refine ⟨fun x => rfl, by rw [hrun], by rw [hrun], ?_⟩
  obtain ⟨stR, heq, hs, hi, hp, hpl⟩ :=
    resumeReading_run (fuel2 + 1) (run (fuel + 1) st sched).2 settings sched2
  rw [heq]
  have hs2 : stR.sentences = st.sentences := by rw [hs, hrun]
  have hi2 : stR.currentSentenceIndex = st.currentSentenceIndex := by
    rw [hi, hrun]
  have hjR : jsGet stR.sentences stR.currentSentenceIndex = some sen := by
    rw [hs2, hi2]; exact hj
  obtain ⟨rest, hrest⟩ := run_head fuel2 stR sched2 sen hpl hp hjR
  rw [hi2] at hrest
  exact ⟨rest, hrest⟩

/-- C6 witness: the theorem at a concrete two-sentence session paused during
its first sentence and then resumed. -/
theorem claim6_pause_resume_witness :
    (∀ x : SessState,
      (pauseReading x).currentSentenceIndex = x.currentSentenceIndex) ∧
    (run 1 exState2 (fun _ => envPause)).2.currentSentenceIndex = 0 ∧
    (run 1 exState2 (fun _ => envPause)).2.sentences = exState2.sentences ∧
    (∃ rest,
      (resumeReading 1 (run 1 exState2 (fun _ => envPause)).2 exSettings
          (fun _ => envOk)).1 =
        Ev.pipelineStart 0 :: Ev.highlight 0 exT0
          :: Ev.synthStart 0 exT0 :: rest) :=
  claim6_pause_resume 0 0 exState2 (fun _ => envPause) (fun _ => envOk)
    exSettings exS0 rfl rfl (by decide) rfl rfl

/-! ## Claim C10 -/

/-- C10: resuming when the sentence list is empty does not throw — the
pipeline guard fires immediately, the controller performs a full stop that
emits the `readingStopped` notification with `closeReader = true`, and the
message handler replies with success. -/
theorem claim10_resume_empty (fuel : Nat) (st : SessState)
    (settings : Settings) (sched : Nat → IterEnv)
    (hempty : st.sentences = []) (hidx : 0 ≤ st.currentSentenceIndex) :
    handleResumeMessage (fuel + 1) st settings sched =
      (Status.success,
       [Ev.pipelineStart st.currentSentenceIndex, Ev.stopped true],
       clearedSession) := by
  obtain ⟨stR, heq, hs, hi, hp, hpl⟩ :=
    resumeReading_run (fuel + 1) st settings sched
  have hle : (stR.sentences.length : Int) ≤ stR.currentSentenceIndex := by
    rw [hs, hempty, hi]
    simpa using hidx
  have hg : guardStop stR = true := by
    simp [guardStop, hle]
  unfold handleResumeMessage
  rw [heq]
  simp [run, hg, hle, hi, stopReadingEvents, stopReadingState_false]
  exact hi ▸ hle

/-- C10 witness: the theorem at the concrete cleared session. -/
theorem claim10_resume_empty_witness :
    handleResumeMessage 1 clearedSession exSettings (fun _ => envOk) =
      (Status.success, [Ev.pipelineStart 0, Ev.stopped true],
       clearedSession) :=
  claim10_resume_empty 0 clearedSession exSettings (fun _ => envOk)
    rfl (by decide)

/-! ## Claim C4 -/

lemma jsGet_neg {l : List Sentence} {i : Int} (hi : i < 0) :
    jsGet l i = none := by
  unfold jsGet
  rw [dif_neg]
  intro hc
  omega

/-- C4, counterexample: on a two-sentence session at index 0, seeking to the
negative index -1 passes the bounds guard, fails with the undefined-sentence
TypeError rather than an index-out-of-range error, and leaves
`currentSentenceIndex` changed to -1. -/
theorem claim4_negative_counterexample :
    (readFromIndex 1 exState2 exSettings (fun _ => envOk) (-1)).thrown =
      some RFIError.sentenceUndefined ∧
    some RFIError.sentenceUndefined ≠ some RFIError.indexOutOfBounds ∧
    (readFromIndex 1 exState2 exSettings
        (fun _ => envOk) (-1)).state.currentSentenceIndex = -1 ∧
    exState2.currentSentenceIndex = 0 := by
  refine ⟨?_, ?_, ?_, ?_⟩ <;> decide

/-- C4, amended: `readFromIndex` fails with the no-sentences error on an
empty session and with the index-out-of-range error for `index ≥ length`,
leaving the state unchanged in both cases; it succeeds only when the list is
non-empty and `0 ≤ index < length`.  But a **negative** index passes the
guard: the call then fails with the undefined-sentence TypeError and leaves
`currentSentenceIndex` set to the negative index (with playback torn down,
the sentence list kept). -/
theorem claim4_amended :
    (∀ (fuel : Nat) (st : SessState) (settings : Settings)
        (sched : Nat → IterEnv) (i : Int), st.sentences = [] →
      readFromIndex fuel st settings sched i =
        { thrown := some .noSentences, trace := [], state := st }) ∧
    (∀ (fuel : Nat) (st : SessState) (settings : Settings)
        (sched : Nat → IterEnv) (i : Int),
      st.sentences ≠ [] → (st.sentences.length : Int) ≤ i →
      readFromIndex fuel st settings sched i =
        { thrown := some .indexOutOfBounds, trace := [], state := st }) ∧
    (∀ (fuel : Nat) (st : SessState) (settings : Settings)
        (sched : Nat → IterEnv) (i : Int),
      st.sentences ≠ [] → i < 0 →
      (readFromIndex fuel st settings sched i).thrown =
          some .sentenceUndefined ∧
      (readFromIndex fuel st settings sched i).state.currentSentenceIndex = i ∧
      (readFromIndex fuel st settings sched i).state.sentences =
        st.sentences) ∧
    (∀ (fuel : Nat) (st : SessState) (settings : Settings)
        (sched : Nat → IterEnv) (i : Int),
      (readFromIndex fuel st settings sched i).thrown = none →
      0 ≤ i ∧ i < (st.sentences.length : Int)) := by
  refine ⟨?_, ?_, ?_, ?_⟩
  · intro fuel st settings sched i hempty
    unfold readFromIndex
    rw [if_pos (by simp [hempty])]
  · intro fuel st settings sched i hne hge
    unfold readFromIndex
    rw [if_neg (fun hc => hne (List.length_eq_zero.mp hc)), if_pos hge]
  · intro fuel st settings sched i hne hneg
    have h0 : ¬(st.sentences.length = 0) := fun hc => hne (List.length_eq_zero.mp hc)
    have h1 : ¬((st.sentences.length : Int) ≤ i) := by omega
    simp only [readFromIndex, if_neg h0, if_neg h1, jsGet_neg hneg]
    simp [stopCurrent, apply_ite (f := SessState.sentences)]
  · intro fuel st settings sched i h
    simp only [readFromIndex] at h
    split at h
    · simp at h
    · split at h
      · simp at h
      · rename_i h0 h1
        split at h
        · simp at h
        · rename_i sen hj
          have := jsGet_lt hj
          constructor
          · exact this.1
          · omega

/-- C4 witness: the amended theorem at concrete sessions — the empty-session
error, the out-of-range error, the negative-index TypeError with the mutated
index, and a successful call implying a valid index. -/
theorem claim4_amended_witness :
    readFromIndex 1 clearedSession exSettings (fun _ => envOk) 0 =
      { thrown := some .noSentences, trace := [], state := clearedSession } ∧
    readFromIndex 1 exState2 exSettings (fun _ => envOk) 5 =
      { thrown := some .indexOutOfBounds, trace := [], state := exState2 } ∧
    (readFromIndex 1 exState2 exSettings
        (fun _ => envOk) (-1)).state.currentSentenceIndex = -1 ∧
    (0 ≤ (1 : Int) ∧ (1 : Int) < (exState2.sentences.length : Int)) := by
  refine ⟨?_, ?_, ?_, ?_⟩
  · exact claim4_amended.1 1 clearedSession exSettings (fun _ => envOk) 0 rfl
  · exact claim4_amended.2.1 1 exState2 exSettings (fun _ => envOk) 5
      (by decide) (by decide)
  · exact (claim4_amended.2.2.1 1 exState2 exSettings (fun _ => envOk) (-1)
      (by decide) (by decide)).2.1
  · exact claim4_amended.2.2.2 1 exState2 exSettings (fun _ => envOk) 1
      (by decide)

/-- C9, amended: when no settings have been persisted and storage succeeds,
the background getSettings returns the long-form default
`{voice: msVoiceLong, speed: 1.0}`, and a session started without explicit
voice and rate falls back to exactly that; the documented
`{voice: "en-US-AvaNeural", speed: 1.0}` is produced only by the background
storage-failure branch, by the legacy part_004 background handler, and by
the content script when no response object arrives. -/
theorem claim9_amended :
    backgroundGetSettings none none true = { voice := msVoiceLong, speed := 1 } ∧
    (∀ sv ss, backgroundGetSettings sv ss false =
      { voice := "en-US-AvaNeural", speed := 1 }) ∧
    part004GetSettings none none = { voice := "en-US-AvaNeural", speed := 1 } ∧
    contentGetSettings none = { voice := "en-US-AvaNeural", speed := 1 } ∧
    resolveStart none none (some (backgroundGetSettings none none true)) =
      (msVoiceLong, 1) := by
  refine ⟨rfl, fun sv ss => rfl, rfl, rfl, ?_⟩
  decide

end EdgeTTS
